import Mathlib

/-
  Shallow embedding of the VCD parser in vcd_parser_axi.py.

  Python strings are modelled as List Char.  The helpers pyStrip, pySplit
  and pyInt model str.strip(), str.split() with no argument, and int(s)
  (success as some, a raised ValueError as none).  The parser state carries
  the signals dictionary (insertion-ordered association list, as Python
  dicts are insertion ordered), the timeline defaultdict, the current time
  and the in-definitions flag.  A processing step returns none when the
  Python code would raise an uncaught exception.
-/

def isSpaceC (c : Char) : Bool :=
  c = ' ' || c = '\t' || c = '\n' || c = '\r' || c = '\x0b' || c = '\x0c'

def pyStrip (l : List Char) : List Char :=
  ((l.dropWhile isSpaceC).reverse.dropWhile isSpaceC).reverse

def pySplitAux : List Char → List Char → List (List Char)
  | [], acc => if acc = [] then [] else [acc.reverse]
  | c :: cs, acc =>
    if isSpaceC c then
      if acc = [] then pySplitAux cs [] else acc.reverse :: pySplitAux cs []
    else
      pySplitAux cs (c :: acc)

def pySplit (l : List Char) : List (List Char) := pySplitAux l []

def digitsToNat : List Char → Option Nat
  | [] => some 0
  | c :: cs =>
    if c.isDigit then
      (digitsToNat cs).map (fun n => (c.toNat - 48) * 10 ^ cs.length + n)
    else
      none

/-- Python int(s) on a str argument: optional surrounding whitespace, an
optional sign, then at least one ASCII digit; none models ValueError.
Digit-grouping underscores and non-ASCII digits are not modelled. -/
def pyInt (l : List Char) : Option Int :=
  match pyStrip l with
  | [] => none
  | '-' :: rest =>
    if rest = [] then none else (digitsToNat rest).map (fun n => -(n : Int))
  | '+' :: rest =>
    if rest = [] then none else (digitsToNat rest).map (fun n => (n : Int))
  | l' => (digitsToNat l').map (fun n => (n : Int))

structure Signal where
  name : List Char
  width : Int
  type : List Char
  values : List (Int × List Char)
  deriving DecidableEq

structure ParseState where
  signals : List (List Char × Signal)
  timeline : List (Int × List (List Char × List Char))
  current_time : Int
  in_definitions : Bool
  deriving DecidableEq

def dictGet? {α β : Type} [DecidableEq α] : List (α × β) → α → Option β
  | [], _ => none
  | (k, v) :: rest, k' => if k = k' then some v else dictGet? rest k'

def dictContains {α β : Type} [DecidableEq α] (d : List (α × β)) (k : α) : Bool :=
  (dictGet? d k).isSome

def dictInsert {α β : Type} [DecidableEq α] : List (α × β) → α → β → List (α × β)
  | [], k, v => [(k, v)]
  | (k', v') :: rest, k, v =>
    if k' = k then (k, v) :: rest else (k', v') :: dictInsert rest k v

def dictModify {α β : Type} [DecidableEq α] : List (α × β) → α → (β → β) → List (α × β)
  | [], _, _ => []
  | (k', v) :: rest, k, f =>
    if k' = k then (k', f v) :: rest else (k', v) :: dictModify rest k f

def bucketAppend {α : Type} : List (Int × List α) → Int → α → List (Int × List α)
  | [], k, v => [(k, [v])]
  | (k', l) :: rest, k, v =>
    if k' = k then (k', l ++ [v]) :: rest else (k', l) :: bucketAppend rest k v

def sVar : List Char := ['$', 'v', 'a', 'r']

def sEndDefs : List Char :=
  ['$', 'e', 'n', 'd', 'd', 'e', 'f', 'i', 'n', 'i', 't', 'i', 'o', 'n', 's']

def sDollar : List Char := ['$']

def sHashMark : List Char := ['#']

def startsWithL : List Char → List Char → Bool
  | [], _ => true
  | _ :: _, [] => false
  | p :: ps, c :: cs => if p = c then startsWithL ps cs else false

/-- The if line.startswith dollar-var branch: parts_1 to parts_4 are read and
int(parts_2) is parsed; any IndexError or ValueError is modelled as none. -/
def varStep (st : ParseState) (line : List Char) : Option ParseState :=
  if startsWithL sVar line then
    match pySplit line with
    | _ :: ty :: w :: sym :: nm :: _ =>
      match pyInt w with
      | some width =>
        some { st with signals := dictInsert st.signals sym ⟨nm, width, ty, []⟩ }
      | none => none
    | _ => none
  else some st

/-- The enddefinitions branch: clears the in-definitions flag. -/
def endDefsStep (st : ParseState) (line : List Char) : ParseState :=
  if startsWithL sEndDefs line then { st with in_definitions := false } else st

/-- The timestamp branch: gated on the value-change phase; int(line[1:]) may raise. -/
def timestampStep (st : ParseState) (line : List Char) : Option ParseState :=
  if startsWithL sHashMark line && !st.in_definitions then
    match pyInt (line.drop 1) with
    | some t => some { st with current_time := t }
    | none => none
  else some st

/-- Decoding of a value-change line into (value, symbol): the scalar case for a
first character among 0, 1, x, X with length at least 2, else the vector case
for a leading b; none models the Python locals staying None. -/
def decode : List Char → Option (List Char × List Char)
  | [] => none
  | c :: rest =>
    if rest ≠ [] && (c = '0' || c = '1' || c = 'x' || c = 'X') then
      some ([c], rest)
    else if c = 'b' then
      match pySplit (c :: rest) with
      | tokv :: toks :: _ => some (tokv.drop 1, toks)
      | _ => none
    else none

/-- The value-change branch: gated on phase, on not starting with a structural
marker and on being non-empty; records into both the signals dict and the
timeline defaultdict when the symbol is truthy and declared. -/
def valueChangeStep (st : ParseState) (line : List Char) : ParseState :=
  if !st.in_definitions && !startsWithL sDollar line && !startsWithL sHashMark line
      && !line.isEmpty then
    match decode line with
    | some (value, sym) =>
      if sym ≠ [] && dictContains st.signals sym then
        { st with
          signals := dictModify st.signals sym
            (fun s => { s with values := s.values ++ [(st.current_time, value)] }),
          timeline := bucketAppend st.timeline st.current_time (sym, value) }
      else st
    | none => st
  else st

/-- One iteration of the for loop over lines: strip, then the four sequential
if statements of the source; none models an uncaught exception. -/
def processLine (st : ParseState) (rawLine : List Char) : Option ParseState :=
  (varStep st (pyStrip rawLine)).bind fun st1 =>
    (timestampStep (endDefsStep st1 (pyStrip rawLine)) (pyStrip rawLine)).map fun st3 =>
      valueChangeStep st3 (pyStrip rawLine)

def initState : ParseState :=
  { signals := [], timeline := [], current_time := 0, in_definitions := true }

def parseLines (st : ParseState) : List (List Char) → Option ParseState
  | [] => some st
  | l :: ls =>
    match processLine st l with
    | none => none
    | some st' => parseLines st' ls

/-- parse_vcd over a list of input lines. -/
def parse_vcd (lines : List (List Char)) : Option ParseState :=
  parseLines initState lines

/-- Case-insensitive-lowering of a Python string, as str.lower on ASCII. -/
def toLowerL (l : List Char) : List Char := l.map Char.toLower

/-- Python substring containment: needle in haystack. -/
def containsSub (needle : List Char) : List Char → Bool
  | [] => needle.isPrefixOf ([] : List Char)
  | c :: rest => needle.isPrefixOf (c :: rest) || containsSub needle rest

/-- The rising-edges list comprehension of analyze_signal. -/
def risingEdges (values : List (Int × List Char)) : List Int :=
  (values.filter (fun p => p.2 = ['1'])).map Prod.fst

/-- The clock-period computation of analyze_signal: requires a clk-like name,
at least 3 history entries, and at least two rising edges. -/
def clockPeriod (signal_name : List Char) (values : List (Int × List Char)) : Option Int :=
  if containsSub ['c', 'l', 'k'] (toLowerL signal_name) && values.length ≥ 3 then
    match risingEdges values with
    | t0 :: t1 :: _ => some (t1 - t0)
    | _ => none
  else none

/-- The frequency conversion of analyze_signal: frequency_mhz is 1e6 divided
by the period, the float value modelled as an exact rational.  Except.error
models the ZeroDivisionError the division raises when the period is zero,
which aborts analyze_signal; Except.ok none models the analysis completing
without computing any frequency (no period was computed). -/
def clockFrequencyMHz (signal_name : List Char) (values : List (Int × List Char)) :
    Except Unit (Option ℚ) :=
  match clockPeriod signal_name values with
  | none => Except.ok none
  | some p =>
    if p = 0 then Except.error () else Except.ok (some (1000000 / (p : ℚ)))

theorem dictGet?_insert {α β : Type} [DecidableEq α] (d : List (α × β)) (k : α) (v : β) :
    dictGet? (dictInsert d k v) k = some v := by
  induction d with
  | nil => simp [dictInsert, dictGet?]
  | cons p rest ih =>
    obtain ⟨k', v'⟩ := p
    by_cases h : k' = k
    · simp [dictInsert, h, dictGet?]
    · simp [dictInsert, h, dictGet?, ih]

theorem dictGet?_modify {α β : Type} [DecidableEq α] (d : List (α × β)) (k : α) (f : β → β) :
    dictGet? (dictModify d k f) k = (dictGet? d k).map f := by
  induction d with
  | nil => simp [dictModify, dictGet?]
  | cons p rest ih =>
    obtain ⟨k', v'⟩ := p
    by_cases h : k' = k
    · simp [dictModify, h, dictGet?]
    · simp [dictModify, h, dictGet?, ih]

theorem dictGet?_bucketAppend {α : Type} (d : List (Int × List α)) (k : Int) (v : α) :
    dictGet? (bucketAppend d k v) k = some ((dictGet? d k).getD [] ++ [v]) := by
  induction d with
  | nil => simp [bucketAppend, dictGet?]
  | cons p rest ih =>
    obtain ⟨k', l⟩ := p
    by_cases h : k' = k
    · simp [bucketAppend, h, dictGet?]
    · simp [bucketAppend, h, dictGet?, ih]

theorem pySplitAux_ne_nil (l : List Char) :
    ∀ (acc t : List Char), t ∈ pySplitAux l acc → t ≠ [] := by
  induction l with
  | nil =>
    intro acc t h
    unfold pySplitAux at h
    by_cases ha : acc = []
    · simp [ha] at h
    · simp [ha] at h
      simp [h, ha]
  | cons c cs ih =>
    intro acc t h
    unfold pySplitAux at h
    by_cases hc : isSpaceC c
    · by_cases ha : acc = []
      · simp [hc, ha] at h
        exact ih [] t h
      · simp [hc, ha] at h
        rcases h with h | h
        · simp [h, ha]
        · exact ih [] t h
    · simp [hc] at h
      exact ih (c :: acc) t h

theorem pySplit_ne_nil {l t : List Char} (h : t ∈ pySplit l) : t ≠ [] :=
  pySplitAux_ne_nil l [] t h

theorem varStep_skip (st : ParseState) (line : List Char)
    (h : startsWithL sVar line = false) : varStep st line = some st := by
  simp [varStep, h]

theorem endDefsStep_skip (st : ParseState) (line : List Char)
    (h : startsWithL sEndDefs line = false) : endDefsStep st line = st := by
  simp [endDefsStep, h]

theorem timestampStep_skip (st : ParseState) (line : List Char)
    (h : startsWithL sHashMark line = false) : timestampStep st line = some st := by
  simp [timestampStep, h]

theorem timestampStep_defs (st : ParseState) (line : List Char)
    (h : st.in_definitions = true) : timestampStep st line = some st := by
  simp [timestampStep, h]

theorem valueChangeStep_skip_dollar (st : ParseState) (line : List Char)
    (h : startsWithL sDollar line = true) : valueChangeStep st line = st := by
  simp [valueChangeStep, h]

theorem valueChangeStep_current_time (st : ParseState) (line : List Char) :
    (valueChangeStep st line).current_time = st.current_time := by
  unfold valueChangeStep
  repeat' split
  all_goals rfl

theorem valueChangeStep_in_definitions (st : ParseState) (line : List Char) :
    (valueChangeStep st line).in_definitions = st.in_definitions := by
  unfold valueChangeStep
  repeat' split
  all_goals rfl

theorem varStep_fields {st : ParseState} {line : List Char} {st' : ParseState}
    (h : varStep st line = some st') :
    st'.current_time = st.current_time ∧ st'.in_definitions = st.in_definitions ∧
      st'.timeline = st.timeline := by
  unfold varStep at h
  split at h
  · split at h
    · split at h
      · cases h; exact ⟨rfl, rfl, rfl⟩
      · cases h
    · cases h
  · cases h; exact ⟨rfl, rfl, rfl⟩

theorem endDefsStep_fields (st : ParseState) (line : List Char) :
    (endDefsStep st line).current_time = st.current_time ∧
      (endDefsStep st line).signals = st.signals ∧
      (endDefsStep st line).timeline = st.timeline := by
  unfold endDefsStep
  split
  · exact ⟨rfl, rfl, rfl⟩
  · exact ⟨rfl, rfl, rfl⟩

theorem endDefsStep_keep_false (st : ParseState) (line : List Char)
    (h : st.in_definitions = false) : (endDefsStep st line).in_definitions = false := by
  unfold endDefsStep
  split
  · rfl
  · exact h

theorem timestampStep_fields {st : ParseState} {line : List Char} {st' : ParseState}
    (h : timestampStep st line = some st') :
    st'.in_definitions = st.in_definitions ∧ st'.signals = st.signals ∧
      st'.timeline = st.timeline := by
  unfold timestampStep at h
  split at h
  · split at h
    · cases h; exact ⟨rfl, rfl, rfl⟩
    · cases h
  · cases h; exact ⟨rfl, rfl, rfl⟩

theorem hashMark_false_of_endDefs {line : List Char}
    (h : startsWithL sEndDefs line = true) : startsWithL sHashMark line = false := by
  cases line with
  | nil => simp [startsWithL, sEndDefs] at h
  | cons c cs =>
    by_cases hc : '$' = c
    · subst hc; rfl
    · simp [startsWithL, sEndDefs, hc] at h

theorem processLine_phase_mono {st : ParseState} {raw : List Char} {st' : ParseState}
    (hd : st.in_definitions = false) (h : processLine st raw = some st') :
    st'.in_definitions = false := by
  unfold processLine at h
  cases hv : varStep st (pyStrip raw) with
  | none => simp only [hv, Option.none_bind'] at h; exact Option.noConfusion h
  | some st1 =>
    simp only [hv, Option.some_bind'] at h
    have h1 : st1.in_definitions = false := (varStep_fields hv).2.1.trans hd
    cases ht : timestampStep (endDefsStep st1 (pyStrip raw)) (pyStrip raw) with
    | none => simp only [ht, Option.map_none'] at h; exact Option.noConfusion h
    | some st3 =>
      simp only [ht, Option.map_some', Option.some.injEq] at h
      rw [← h, valueChangeStep_in_definitions, (timestampStep_fields ht).1]
      exact endDefsStep_keep_false st1 (pyStrip raw) h1

theorem processLine_time_defs {st : ParseState} {raw : List Char} {st' : ParseState}
    (hd : st.in_definitions = true) (h : processLine st raw = some st') :
    st'.current_time = st.current_time := by
  unfold processLine at h
  cases hv : varStep st (pyStrip raw) with
  | none => simp only [hv, Option.none_bind'] at h; exact Option.noConfusion h
  | some st1 =>
    simp only [hv, Option.some_bind'] at h
    obtain ⟨ht1, hd1, _⟩ := varStep_fields hv
    have hd1' : st1.in_definitions = true := hd1.trans hd
    by_cases he : startsWithL sEndDefs (pyStrip raw) = true
    · rw [timestampStep_skip _ _ (hashMark_false_of_endDefs he), Option.map_some',
        Option.some.injEq] at h
      rw [← h, valueChangeStep_current_time, (endDefsStep_fields st1 (pyStrip raw)).1]
      exact ht1
    · rw [endDefsStep_skip st1 (pyStrip raw) (by simpa using he),
        timestampStep_defs st1 (pyStrip raw) hd1', Option.map_some',
        Option.some.injEq] at h
      rw [← h, valueChangeStep_current_time]
      exact ht1

theorem parseLines_phase_mono (ls : List (List Char)) :
    ∀ (st st' : ParseState), st.in_definitions = false →
      parseLines st ls = some st' → st'.in_definitions = false := by
  induction ls with
  | nil =>
    intro st st' hd h
    unfold parseLines at h
    cases h
    exact hd
  | cons l ls ih =>
    intro st st' hd h
    unfold parseLines at h
    cases hp : processLine st l with
    | none => rw [hp] at h; cases h
    | some st1 =>
      rw [hp] at h
      exact ih st1 st' (processLine_phase_mono hd hp) h

theorem parseLines_time_defs (ls : List (List Char)) :
    ∀ (st st' : ParseState), st.in_definitions = true →
      parseLines st ls = some st' → st'.in_definitions = true →
      st'.current_time = st.current_time := by
  induction ls with
  | nil =>
    intro st st' _ h _
    unfold parseLines at h
    cases h
    rfl
  | cons l ls ih =>
    intro st st' hd h hd'
    unfold parseLines at h
    cases hp : processLine st l with
    | none => rw [hp] at h; cases h
    | some st1 =>
      rw [hp] at h
      cases hd1 : st1.in_definitions with
      | true => exact (ih st1 st' hd1 h hd').trans (processLine_time_defs hd hp)
      | false =>
        have := parseLines_phase_mono ls st1 st' hd1 h
        rw [this] at hd'
        cases hd'

theorem startsWith_var {rest : List Char} :
    startsWithL sVar ('$' :: 'v' :: 'a' :: 'r' :: rest) = true := rfl

theorem not_endDefs_of_var {rest : List Char} :
    startsWithL sEndDefs ('$' :: 'v' :: 'a' :: 'r' :: rest) = false := rfl

theorem not_hash_of_var {rest : List Char} :
    startsWithL sHashMark ('$' :: 'v' :: 'a' :: 'r' :: rest) = false := rfl

theorem dollar_of_var {rest : List Char} :
    startsWithL sDollar ('$' :: 'v' :: 'a' :: 'r' :: rest) = true := rfl

/-- Processing any line whose stripped form is a well-formed dollar-var
declaration: the registry entry for the symbol is created or overwritten with
the declared name, width and kind and an empty value history, and nothing else
in the state changes. -/
theorem processLine_var {st : ParseState} {raw rest tok0 ty w sym nm : List Char}
    {more : List (List Char)} {width : Int}
    (hline : pyStrip raw = '$' :: 'v' :: 'a' :: 'r' :: rest)
    (hparts : pySplit ('$' :: 'v' :: 'a' :: 'r' :: rest) = tok0 :: ty :: w :: sym :: nm :: more)
    (hw : pyInt w = some width) :
    processLine st raw =
      some { st with signals := dictInsert st.signals sym ⟨nm, width, ty, []⟩ } := by
  have hv : varStep st (pyStrip raw) =
      some { st with signals := dictInsert st.signals sym ⟨nm, width, ty, []⟩ } := by
    rw [hline]
    unfold varStep
    rw [ if_pos startsWith_var, hparts]
    simp only [hw]
  unfold processLine
  rw [hv, Option.some_bind',
    endDefsStep_skip _ _ (by rw [hline]; exact not_endDefs_of_var),
    timestampStep_skip _ _ (by rw [hline]; exact not_hash_of_var),
    Option.map_some',
    valueChangeStep_skip_dollar _ _ (by rw [hline]; exact dollar_of_var)]

/-- Claim C2: parsing the six-line Scenario A input produces a registry with
exactly one signal, symbol bang named clk of width 1 and kind wire, whose
history is the pairs (0, 1) and (5, 0), and a timeline with buckets 0 and 5
holding those same changes in file order. -/
theorem scenarioA_parse :
    parse_vcd
      ["$var wire 1 ! clk $end".toList, "$enddefinitions $end".toList,
        "#0".toList, "1!".toList, "#5".toList, "0!".toList] =
    some
      { signals :=
          [(['!'],
            { name := "clk".toList, width := 1, type := "wire".toList,
              values := [(0, ['1']), (5, ['0'])] })],
        timeline := [(0, [(['!'], ['1'])]), (5, [(['!'], ['0'])])],
        current_time := 5, in_definitions := false } := by decide

/-- Claim C10: declaration lines are processed regardless of phase.  A valid
dollar-var line arriving while in the value-change phase still creates or
overwrites the registry entry for its symbol, with the newly declared name,
width and kind and an empty history, discarding any recorded changes. -/
theorem var_declaration_ignores_phase {st : ParseState}
    {raw rest tok0 ty w sym nm : List Char} {more : List (List Char)} {width : Int}
    (_hphase : st.in_definitions = false)
    (hline : pyStrip raw = '$' :: 'v' :: 'a' :: 'r' :: rest)
    (hparts : pySplit ('$' :: 'v' :: 'a' :: 'r' :: rest) = tok0 :: ty :: w :: sym :: nm :: more)
    (hw : pyInt w = some width) :
    ∃ st', processLine st raw = some st' ∧
      st'.signals = dictInsert st.signals sym ⟨nm, width, ty, []⟩ ∧
      dictGet? st'.signals sym = some ⟨nm, width, ty, []⟩ := by
  refine ⟨_, processLine_var hline hparts hw, rfl, ?_⟩
  exact dictGet?_insert st.signals sym ⟨nm, width, ty, []⟩

theorem var_declaration_ignores_phase_witness :
    ∃ st',
      processLine
        { signals := [(['!'],
            { name := "clk".toList, width := 1, type := "wire".toList,
              values := [(0, ['1'])] })],
          timeline := [(0, [(['!'], ['1'])])], current_time := 0,
          in_definitions := false }
        ("$var reg 2 ! clk2 $end".toList) = some st' ∧
      st'.signals =
        dictInsert
          [(['!'],
            { name := "clk".toList, width := 1, type := "wire".toList,
              values := [(0, ['1'])] })]
          ['!'] ⟨"clk2".toList, 2, "reg".toList, []⟩ ∧
      dictGet? st'.signals ['!'] = some ⟨"clk2".toList, 2, "reg".toList, []⟩ :=
  @var_declaration_ignores_phase
    { signals := [(['!'],
        { name := "clk".toList, width := 1, type := "wire".toList,
          values := [(0, ['1'])] })],
      timeline := [(0, [(['!'], ['1'])])], current_time := 0,
      in_definitions := false }
    ("$var reg 2 ! clk2 $end".toList) (" reg 2 ! clk2 $end".toList)
    ("$var".toList) ("reg".toList) (['2']) (['!']) ("clk2".toList)
    (["$end".toList]) 2 rfl (by decide) (by decide) (by decide)

/-- Claim C6: a second valid dollar-var declaration for an already declared
symbol replaces the stored name, width and kind with those of the second
declaration, and resets that symbol's history to the empty list, discarding
everything accumulated under the first declaration. -/
theorem redeclaration_resets_history {st : ParseState}
    {raw rest tok0 ty w sym nm : List Char} {more : List (List Char)} {width : Int}
    {oldSig : Signal}
    (_hold : dictGet? st.signals sym = some oldSig)
    (hline : pyStrip raw = '$' :: 'v' :: 'a' :: 'r' :: rest)
    (hparts : pySplit ('$' :: 'v' :: 'a' :: 'r' :: rest) = tok0 :: ty :: w :: sym :: nm :: more)
    (hw : pyInt w = some width) :
    ∃ st', processLine st raw = some st' ∧
      dictGet? st'.signals sym = some ⟨nm, width, ty, []⟩ := by
  refine ⟨_, processLine_var hline hparts hw, ?_⟩
  exact dictGet?_insert st.signals sym ⟨nm, width, ty, []⟩

theorem redeclaration_resets_history_witness :
    ∃ st',
      processLine
        { signals := [(['!'],
            { name := "clk".toList, width := 1, type := "wire".toList,
              values := [(0, ['1']), (5, ['0'])] })],
          timeline := [], current_time := 5, in_definitions := true }
        ("$var reg 4 ! counter $end".toList) = some st' ∧
      dictGet? st'.signals ['!'] = some ⟨"counter".toList, 4, "reg".toList, []⟩ :=
  @redeclaration_resets_history
    { signals := [(['!'],
        { name := "clk".toList, width := 1, type := "wire".toList,
          values := [(0, ['1']), (5, ['0'])] })],
      timeline := [], current_time := 5, in_definitions := true }
    ("$var reg 4 ! counter $end".toList) (" reg 4 ! counter $end".toList)
    ("$var".toList) ("reg".toList) (['4']) (['!']) ("counter".toList)
    (["$end".toList]) 4
    ⟨"clk".toList, 1, "wire".toList, [(0, ['1']), (5, ['0'])]⟩
    (by decide) (by decide) (by decide) (by decide)

theorem varStep_malformed {st : ParseState} {rest : List Char}
    (hbad : (pySplit ('$' :: 'v' :: 'a' :: 'r' :: rest)).length < 5 ∨
      ∃ tok0 ty w sym nm more,
        pySplit ('$' :: 'v' :: 'a' :: 'r' :: rest) = tok0 :: ty :: w :: sym :: nm :: more ∧
        pyInt w = none) :
    varStep st ('$' :: 'v' :: 'a' :: 'r' :: rest) = none := by
  unfold varStep
  rw [ if_pos startsWith_var]
  rcases hbad with hlen | ⟨tok0, ty, w, sym, nm, more, hps, hw⟩
  · rcases hp : pySplit ('$' :: 'v' :: 'a' :: 'r' :: rest) with
      _ | ⟨a, _ | ⟨b, _ | ⟨c, _ | ⟨d, _ | ⟨e, t⟩⟩⟩⟩⟩
    · rfl
    · rfl
    · rfl
    · rfl
    · rfl
    · rw [hp] at hlen
      simp only [List.length_cons] at hlen
      omega
  · simp only [hps, hw]

/-- Claim C1 (amended): a declaration line with fewer than 5 whitespace fields
or a non-integer width field is not skipped; it raises an uncaught exception
that aborts the whole parse, creating no registry entry and processing no
subsequent line. -/
theorem malformed_declaration_aborts_parse {st : ParseState} {raw rest : List Char}
    (hline : pyStrip raw = '$' :: 'v' :: 'a' :: 'r' :: rest)
    (hbad : (pySplit (pyStrip raw)).length < 5 ∨
      ∃ tok0 ty w sym nm more,
        pySplit (pyStrip raw) = tok0 :: ty :: w :: sym :: nm :: more ∧ pyInt w = none) :
    processLine st raw = none ∧ ∀ ls, parseLines st (raw :: ls) = none := by
  rw [hline] at hbad
  have h1 : processLine st raw = none := by
    unfold processLine
    rw [hline, @varStep_malformed st rest hbad, Option.none_bind']
  refine ⟨h1, fun ls => ?_⟩
  unfold parseLines
  rw [h1]

theorem malformed_declaration_aborts_parse_witness :
    processLine initState ("$var wire abc ! clk $end".toList) = none :=
  (@malformed_declaration_aborts_parse initState
    ("$var wire abc ! clk $end".toList) (" wire abc ! clk $end".toList)
    (by decide)
    (Or.inr ⟨"$var".toList, "wire".toList, "abc".toList, ['!'], "clk".toList,
      ["$end".toList], by decide, by decide⟩)).1

/-- Claim C1, counterexample to the claim as stated: on the input consisting of
the declaration line with non-integer width followed by further lines, the
parse does not run to completion with the line skipped; it aborts (the Python
code raises ValueError), so no registry and no timeline are produced at all. -/
theorem malformed_declaration_not_skipped :
    parse_vcd
      ["$var wire abc ! clk $end".toList, "$enddefinitions $end".toList,
        "#0".toList, "1!".toList] = none := by decide

theorem dollar_of_sVar {l : List Char} (h : startsWithL sVar l = true) :
    startsWithL sDollar l = true := by
  cases l with
  | nil => simp [startsWithL, sVar] at h
  | cons c cs =>
    by_cases hc : '$' = c
    · subst hc; rfl
    · simp [startsWithL, sVar, hc] at h

theorem dollar_of_sEndDefs {l : List Char} (h : startsWithL sEndDefs l = true) :
    startsWithL sDollar l = true := by
  cases l with
  | nil => simp [startsWithL, sEndDefs] at h
  | cons c cs =>
    by_cases hc : '$' = c
    · subst hc; rfl
    · simp [startsWithL, sEndDefs, hc] at h

theorem sVar_false_of_dollar_false {l : List Char}
    (h : startsWithL sDollar l = false) : startsWithL sVar l = false := by
  cases hv : startsWithL sVar l with
  | false => rfl
  | true => rw [dollar_of_sVar hv] at h; cases h

theorem sEndDefs_false_of_dollar_false {l : List Char}
    (h : startsWithL sDollar l = false) : startsWithL sEndDefs l = false := by
  cases hv : startsWithL sEndDefs l with
  | false => rfl
  | true => rw [dollar_of_sEndDefs hv] at h; cases h

/-- Processing any line in the value-change phase that decodes to a declared,
truthy symbol: the change is appended simultaneously to the owning signal's
history, stamped with the current time, and to the timeline bucket for the
current time. -/
theorem processLine_record {st : ParseState} {raw v sym : List Char} {sig : Signal}
    (hd : st.in_definitions = false)
    (hdollar : startsWithL sDollar (pyStrip raw) = false)
    (hhash : startsWithL sHashMark (pyStrip raw) = false)
    (hne : pyStrip raw ≠ [])
    (hdec : decode (pyStrip raw) = some (v, sym))
    (hsym : sym ≠ [])
    (hsig : dictGet? st.signals sym = some sig) :
    processLine st raw =
      some { st with
        signals := dictModify st.signals sym
          (fun s => { s with values := s.values ++ [(st.current_time, v)] }),
        timeline := bucketAppend st.timeline st.current_time (sym, v) } := by
  unfold processLine
  rw [varStep_skip _ _ (sVar_false_of_dollar_false hdollar), Option.some_bind',
    endDefsStep_skip _ _ (sEndDefs_false_of_dollar_false hdollar),
    timestampStep_skip _ _ hhash, Option.map_some']
  unfold valueChangeStep
  rw [hd, hdec]
  simp only [Bool.not_false, Bool.true_and, hdollar, hhash]
  have hemp : (pyStrip raw).isEmpty = false := by
    cases hpe : pyStrip raw with
    | nil => exact absurd hpe hne
    | cons a t => rfl
  rw [hemp]
  simp only [Bool.not_false, Bool.and_true, if_true]
  have hcond : (decide (sym ≠ []) && dictContains st.signals sym) = true := by
    simp [hsym, dictContains, hsig]
  rw [hcond]
  rfl

/-- Claim C5: every decoded value change recorded during a parse is appended
both to the owning signal's history, paired with the current time, and to the
timeline bucket keyed by the current time, at the end of each list, so the two
views record the same event in the same relative file order. -/
theorem change_recorded_in_both_views {st : ParseState} {raw v sym : List Char}
    {sig : Signal}
    (hd : st.in_definitions = false)
    (hdollar : startsWithL sDollar (pyStrip raw) = false)
    (hhash : startsWithL sHashMark (pyStrip raw) = false)
    (hne : pyStrip raw ≠ [])
    (hdec : decode (pyStrip raw) = some (v, sym))
    (hsym : sym ≠ [])
    (hsig : dictGet? st.signals sym = some sig) :
    ∃ st', processLine st raw = some st' ∧
      st'.current_time = st.current_time ∧
      dictGet? st'.signals sym =
        some { sig with values := sig.values ++ [(st.current_time, v)] } ∧
      dictGet? st'.timeline st.current_time =
        some ((dictGet? st.timeline st.current_time).getD [] ++ [(sym, v)]) := by
  refine ⟨_, processLine_record hd hdollar hhash hne hdec hsym hsig, rfl, ?_, ?_⟩
  · show dictGet? (dictModify st.signals sym _) sym = _
    rw [dictGet?_modify, hsig]
    rfl
  · show dictGet? (bucketAppend st.timeline st.current_time (sym, v)) st.current_time = _
    rw [dictGet?_bucketAppend]

theorem change_recorded_in_both_views_witness :
    ∃ st',
      processLine
        { signals := [(['!'],
            { name := "clk".toList, width := 1, type := "wire".toList,
              values := [(0, ['1'])] })],
          timeline := [(0, [(['!'], ['1'])])], current_time := 5,
          in_definitions := false }
        ("0!".toList) = some st' ∧
      st'.current_time = 5 ∧
      dictGet? st'.signals ['!'] =
        some { name := "clk".toList, width := 1, type := "wire".toList,
               values := [(0, ['1']), (5, ['0'])] } ∧
      dictGet? st'.timeline 5 =
        some ((dictGet?
          ([(0, [(['!'], ['1'])])] : List (Int × List (List Char × List Char))) 5).getD []
          ++ [(['!'], ['0'])]) :=
  @change_recorded_in_both_views
    { signals := [(['!'],
        { name := "clk".toList, width := 1, type := "wire".toList,
          values := [(0, ['1'])] })],
      timeline := [(0, [(['!'], ['1'])])], current_time := 5,
      in_definitions := false }
    ("0!".toList) (['0']) (['!'])
    { name := "clk".toList, width := 1, type := "wire".toList, values := [(0, ['1'])] }
    rfl (by decide) (by decide) (by decide) (by decide) (by decide) (by decide)

/-- Claim C4: a value-change line whose resolved symbol was never declared is
a silent no-op: processing it raises nothing and returns the state completely
unchanged, so no history, no timeline bucket and no current time changes. -/
theorem orphan_change_ignored {st : ParseState} {raw : List Char}
    (hd : st.in_definitions = false)
    (hdollar : startsWithL sDollar (pyStrip raw) = false)
    (hhash : startsWithL sHashMark (pyStrip raw) = false)
    (hne : pyStrip raw ≠ [])
    (horphan : ∀ v sym, decode (pyStrip raw) = some (v, sym) →
      dictContains st.signals sym = false) :
    processLine st raw = some st := by
  unfold processLine
  rw [varStep_skip _ _ (sVar_false_of_dollar_false hdollar), Option.some_bind',
    endDefsStep_skip _ _ (sEndDefs_false_of_dollar_false hdollar),
    timestampStep_skip _ _ hhash, Option.map_some']
  unfold valueChangeStep
  rw [hd]
  simp only [Bool.not_false, Bool.true_and, hdollar, hhash]
  have hemp : (pyStrip raw).isEmpty = false := by
    cases hpe : pyStrip raw with
    | nil => exact absurd hpe hne
    | cons a t => rfl
  rw [hemp]
  simp only [Bool.not_false, Bool.and_true, if_true]
  cases hdec : decode (pyStrip raw) with
  | none => rfl
  | some p =>
    obtain ⟨v, sym⟩ := p
    simp [horphan v sym hdec]

theorem orphan_change_ignored_witness :
    processLine
      { signals := [], timeline := [], current_time := 0, in_definitions := false }
      ("1$".toList) =
    some { signals := [], timeline := [], current_time := 0, in_definitions := false } :=
  @orphan_change_ignored
    { signals := [], timeline := [], current_time := 0, in_definitions := false }
    ("1$".toList) rfl (by decide) (by decide) (by decide) (fun v sym _ => rfl)

/-- Claim C7: once an end-of-definitions marker has been processed the parser
stays in the value-change phase for every remaining line it survives, and a
parse that is still in the definitions phase has never moved current_time away
from its initial value 0 (timestamp lines before the marker are ignored). -/
theorem phase_transition_irreversible :
    (∀ (st : ParseState) (ls : List (List Char)) (st' : ParseState),
        st.in_definitions = false → parseLines st ls = some st' →
        st'.in_definitions = false) ∧
    (∀ (ls : List (List Char)) (st' : ParseState),
        parseLines initState ls = some st' → st'.in_definitions = true →
        st'.current_time = 0) := by
  constructor
  · intro st ls st' hd h
    exact parseLines_phase_mono ls st st' hd h
  · intro ls st' h hd'
    exact parseLines_time_defs ls initState st' rfl h hd'

theorem phase_transition_irreversible_witness :
    ParseState.in_definitions
        { signals := [], timeline := [], current_time := 7, in_definitions := false } =
      false ∧
    ParseState.current_time initState = 0 :=
  ⟨phase_transition_irreversible.1
      { signals := [], timeline := [], current_time := 0, in_definitions := false }
      ["#7".toList]
      { signals := [], timeline := [], current_time := 7, in_definitions := false }
      rfl (by decide),
    phase_transition_irreversible.2 ["#99".toList] initState (by decide) rfl⟩

theorem processLine_scalar {st : ParseState} {raw : List Char} {c : Char}
    {rest : List Char} {sig : Signal}
    (hd : st.in_definitions = false)
    (hline : pyStrip raw = c :: rest)
    (hdollar : startsWithL sDollar (c :: rest) = false)
    (hhash : startsWithL sHashMark (c :: rest) = false)
    (hdec : decode (c :: rest) = some ([c], rest))
    (hr : rest ≠ [])
    (hsig : dictGet? st.signals rest = some sig) :
    processLine st raw =
      some { st with
        signals := dictModify st.signals rest
          (fun s => { s with values := s.values ++ [(st.current_time, [c])] }),
        timeline := bucketAppend st.timeline st.current_time (rest, [c]) } := by
  refine processLine_record hd ?_ ?_ ?_ ?_ hr hsig
  · rw [hline]; exact hdollar
  · rw [hline]; exact hhash
  · rw [hline]; simp
  · rw [hline]; exact hdec

/-- Claim C3 (amended): a value-change line in the value-change phase whose
first character is one of 0, 1, x, X and whose length is at least 2 is decoded
with the value being that single first character preserved verbatim and the
symbol being the entire remainder of the line, and the change is recorded when
the symbol is declared; a line whose first character is z or Z is not
recognized as a scalar change and is skipped entirely. -/
theorem scalar_change_decoding :
    (∀ (st : ParseState) (raw : List Char) (c : Char) (rest : List Char) (sig : Signal),
      st.in_definitions = false →
      pyStrip raw = c :: rest →
      (c = '0' ∨ c = '1' ∨ c = 'x' ∨ c = 'X') →
      rest ≠ [] →
      dictGet? st.signals rest = some sig →
      processLine st raw =
        some { st with
          signals := dictModify st.signals rest
            (fun s => { s with values := s.values ++ [(st.current_time, [c])] }),
          timeline := bucketAppend st.timeline st.current_time (rest, [c]) }) ∧
    (∀ (st : ParseState) (raw rest : List Char),
      pyStrip raw = 'z' :: rest ∨ pyStrip raw = 'Z' :: rest →
      processLine st raw = some st) := by
  constructor
  · intro st raw c rest sig hd hline hc hr hsig
    rcases hc with rfl | rfl | rfl | rfl
    all_goals
      exact processLine_scalar hd hline rfl rfl
        (by
          cases rest with
          | nil => exact absurd rfl hr
          | cons a t => rfl)
        hr hsig
  · intro st raw rest hz
    have hstep : ∀ c : Char, c = 'z' ∨ c = 'Z' → pyStrip raw = c :: rest →
        processLine st raw = some st := by
      intro c hcz hline
      have hvar : startsWithL sVar (c :: rest) = false := by
        rcases hcz with rfl | rfl <;> rfl
      have hend : startsWithL sEndDefs (c :: rest) = false := by
        rcases hcz with rfl | rfl <;> rfl
      have hhash : startsWithL sHashMark (c :: rest) = false := by
        rcases hcz with rfl | rfl <;> rfl
      have hdz : decode (c :: rest) = none := by
        rcases hcz with rfl | rfl <;> cases rest <;> rfl
      unfold processLine
      rw [hline, varStep_skip _ _ hvar, Option.some_bind', endDefsStep_skip _ _ hend,
        timestampStep_skip _ _ hhash, Option.map_some']
      unfold valueChangeStep
      cases hdf : st.in_definitions with
      | true => simp [hdf]
      | false => simp [hdf, hdz]
    rcases hz with hz | hz
    · exact hstep 'z' (Or.inl rfl) hz
    · exact hstep 'Z' (Or.inr rfl) hz

/-- Claim C3, counterexample to the claim as stated: with the symbol bang
declared, the two-character line starting with z is not decoded and recorded;
the parse drops it, leaving the declared signal's history and the timeline
empty, where the claim requires the change to be recorded. -/
theorem scalar_z_not_recorded :
    parse_vcd
      ["$var wire 1 ! clk $end".toList, "$enddefinitions $end".toList,
        "#0".toList, "z!".toList] =
    some { signals := [(['!'],
             { name := "clk".toList, width := 1, type := "wire".toList, values := [] })],
           timeline := [], current_time := 0, in_definitions := false } := by decide

theorem scalar_change_decoding_witness :
    processLine
      { signals := [(['!'],
          { name := "clk".toList, width := 1, type := "wire".toList, values := [] })],
        timeline := [], current_time := 0, in_definitions := false }
      ("x!".toList) =
      some { signals := [(['!'],
               { name := "clk".toList, width := 1, type := "wire".toList,
                 values := [(0, ['x'])] })],
             timeline := [(0, [(['!'], ['x'])])], current_time := 0,
             in_definitions := false } ∧
    processLine
      { signals := [(['!'],
          { name := "clk".toList, width := 1, type := "wire".toList, values := [] })],
        timeline := [], current_time := 0, in_definitions := false }
      ("z!".toList) =
      some { signals := [(['!'],
               { name := "clk".toList, width := 1, type := "wire".toList, values := [] })],
             timeline := [], current_time := 0, in_definitions := false } :=
  ⟨scalar_change_decoding.1
      { signals := [(['!'],
          { name := "clk".toList, width := 1, type := "wire".toList, values := [] })],
        timeline := [], current_time := 0, in_definitions := false }
      ("x!".toList) 'x' ['!']
      { name := "clk".toList, width := 1, type := "wire".toList, values := [] }
      rfl (by decide) (Or.inr (Or.inr (Or.inl rfl))) (by decide) (by decide),
    scalar_change_decoding.2
      { signals := [(['!'],
          { name := "clk".toList, width := 1, type := "wire".toList, values := [] })],
        timeline := [], current_time := 0, in_definitions := false }
      ("z!".toList) ['!'] (Or.inl (by decide))⟩

/-- Claim C8: a vector value-change line in the value-change phase is split on
whitespace; the value is the first token with its leading b stripped and the
symbol is the second token, recorded when declared; a line with no second
token is skipped; and Scenario B holds: after declaring the 8-bit reg m_data
with symbol hash and reaching time 10, the vector line adds the pair
(10, 00001010) to the history of m_data and to the timeline bucket 10. -/
theorem vector_change_decoding :
    (∀ (st : ParseState) (raw rest tokv toks : List Char)
        (more : List (List Char)) (sig : Signal),
      st.in_definitions = false →
      pyStrip raw = 'b' :: rest →
      pySplit ('b' :: rest) = tokv :: toks :: more →
      dictGet? st.signals toks = some sig →
      processLine st raw =
        some { st with
          signals := dictModify st.signals toks
            (fun s => { s with values := s.values ++ [(st.current_time, tokv.drop 1)] }),
          timeline := bucketAppend st.timeline st.current_time (toks, tokv.drop 1) }) ∧
    (∀ (st : ParseState) (raw rest tokv : List Char),
      st.in_definitions = false →
      pyStrip raw = 'b' :: rest →
      pySplit ('b' :: rest) = [tokv] →
      processLine st raw = some st) ∧
    parse_vcd
      ["$var reg 8 # m_data $end".toList, "$enddefinitions $end".toList,
        "#10".toList, "b00001010 #".toList] =
    some { signals := [(['#'],
             { name := "m_data".toList, width := 8, type := "reg".toList,
               values := [(10, "00001010".toList)] })],
           timeline := [(10, [(['#'], "00001010".toList)])], current_time := 10,
           in_definitions := false } := by
  refine ⟨?_, ?_, by decide⟩
  · intro st raw rest tokv toks more sig hd hline hparts hsig
    have htoks : toks ≠ [] :=
      pySplit_ne_nil (l := 'b' :: rest)
        (by rw [hparts]; exact List.mem_cons_of_mem _ (List.mem_cons_self _ _))
    refine processLine_record hd ?_ ?_ ?_ ?_ htoks hsig
    · rw [hline]; rfl
    · rw [hline]; rfl
    · rw [hline]; simp
    · rw [hline]
      cases rest with
      | nil =>
        rw [show pySplit ['b'] = [['b']] from rfl] at hparts
        simp at hparts
      | cons a t =>
        show (match pySplit ('b' :: a :: t) with
          | tokv :: toks :: _ => some (tokv.drop 1, toks)
          | _ => none) = some (tokv.drop 1, toks)
        rw [hparts]
  · intro st raw rest tokv hd hline hparts
    have hdz : decode ('b' :: rest) = none := by
      cases rest with
      | nil => rfl
      | cons a t =>
        show (match pySplit ('b' :: a :: t) with
          | tokv :: toks :: _ => some (tokv.drop 1, toks)
          | _ => none) = none
        rw [hparts]
    unfold processLine
    rw [hline, varStep_skip st ('b' :: rest) rfl, Option.some_bind',
      endDefsStep_skip st ('b' :: rest) rfl,
      timestampStep_skip st ('b' :: rest) rfl, Option.map_some']
    unfold valueChangeStep
    simp [hd, hdz]

theorem vector_change_decoding_witness :
    processLine
      { signals := [(['#'],
          { name := "m_data".toList, width := 8, type := "reg".toList, values := [] })],
        timeline := [], current_time := 10, in_definitions := false }
      ("b00001010 #".toList) =
      some { signals := [(['#'],
               { name := "m_data".toList, width := 8, type := "reg".toList,
                 values := [(10, "00001010".toList)] })],
             timeline := [(10, [(['#'], "00001010".toList)])], current_time := 10,
             in_definitions := false } ∧
    processLine
      { signals := [], timeline := [], current_time := 0, in_definitions := false }
      ("b1010".toList) =
      some { signals := [], timeline := [], current_time := 0,
             in_definitions := false } :=
  ⟨vector_change_decoding.1
      { signals := [(['#'],
          { name := "m_data".toList, width := 8, type := "reg".toList, values := [] })],
        timeline := [], current_time := 10, in_definitions := false }
      ("b00001010 #".toList) ("00001010 #".toList) ("b00001010".toList) (['#']) []
      { name := "m_data".toList, width := 8, type := "reg".toList, values := [] }
      rfl (by decide) (by decide) (by decide),
    vector_change_decoding.2.1
      { signals := [], timeline := [], current_time := 0, in_definitions := false }
      ("b1010".toList) ("1010".toList) ("b1010".toList)
      rfl (by decide) (by decide)⟩

/-- Claim C9 (amended): the clock analysis computes a period only when the
lowercased signal name contains the substring clk, the history has at least 3
entries in total, and at least two entries have value 1; the period is then
the time difference between the first two value-1 entries.  When that period
is nonzero the frequency is one million divided by the period, converting a
picosecond period to MHz; when the period is zero the division raises
ZeroDivisionError and aborts the analysis. -/
theorem clock_period_estimate {name : List Char} {values : List (Int × List Char)}
    {t0 t1 : Int} {ts : List Int}
    (hn : containsSub ['c', 'l', 'k'] (toLowerL name) = true)
    (hlen : values.length ≥ 3)
    (hr : risingEdges values = t0 :: t1 :: ts) :
    clockPeriod name values = some (t1 - t0) ∧
    (t1 - t0 ≠ 0 →
      clockFrequencyMHz name values =
        Except.ok (some (1000000 / ((t1 - t0 : Int) : ℚ)))) ∧
    (t1 - t0 = 0 → clockFrequencyMHz name values = Except.error ()) := by
  have hp : clockPeriod name values = some (t1 - t0) := by
    unfold clockPeriod
    rw [ if_pos (by simp [hn, hlen]), hr]
  refine ⟨hp, ?_, ?_⟩
  · intro hz
    simp only [clockFrequencyMHz, hp]
    rw [ if_neg hz]
  · intro hz
    simp only [clockFrequencyMHz, hp]
    rw [ if_pos hz]

theorem clock_period_estimate_witness :
    clockPeriod ("clk".toList) [(0, ['1']), (3, ['0']), (10, ['1'])] = some 10 ∧
    clockFrequencyMHz ("clk".toList) [(0, ['1']), (3, ['0']), (10, ['1'])] =
      Except.ok (some (1000000 / ((10 : Int) : ℚ))) ∧
    clockFrequencyMHz ("clk".toList) [(0, ['1']), (0, ['1']), (5, ['0'])] =
      Except.error () := by
  have h := @clock_period_estimate ("clk".toList)
    [(0, ['1']), (3, ['0']), (10, ['1'])] 0 10 []
    (by decide) (by decide) (by decide)
  have h0 := @clock_period_estimate ("clk".toList)
    [(0, ['1']), (0, ['1']), (5, ['0'])] 0 0 []
    (by decide) (by decide) (by decide)
  refine ⟨by simpa using h.1, by simpa using h.2.1 (by decide), ?_⟩
  simpa using h0.2.2 rfl

/-- Claim C9, counterexample to the claim as stated: the signal named clk with
history of exactly two entries, both with value 1, meets the claim's
precondition (clock-like name and at least two value-1 entries), yet the code
computes no period estimate and no frequency, because it also requires at
least 3 history entries in total. -/
theorem clock_period_two_entries_none :
    containsSub ['c', 'l', 'k'] (toLowerL ("clk".toList)) = true ∧
    (risingEdges [(0, ['1']), (5, ['1'])]).length ≥ 2 ∧
    clockPeriod ("clk".toList) [(0, ['1']), (5, ['1'])] = none ∧
    clockFrequencyMHz ("clk".toList) [(0, ['1']), (5, ['1'])] = Except.ok none :=
  ⟨by decide, by decide, by decide, rfl⟩
